import Mathlib

/-!
Verification of the telemetry pipeline of jwt-pizza-service.

This file gives a shallow embedding, in Lean 4, of the two source modules the
claims are about:

* `src/logger.js`   — the log pipeline: the sensitive-field sanitizer
  (`sanitize` / `recursiveSanitize`), the record builder of `Logger.log`, and
  the buffer/flush protocol of `Logger.flush`;
* `src/metrics.js`  — the metric aggregator: the request / auth / pizza
  counters, the active-user set, the latency sample lists, and the state
  effect of the periodic `sendMetricsToGrafana` export.

JavaScript numbers are modelled as rationals (`ℚ`); where decimal precision of
the revenue accumulator is itself the property under scrutiny, a separate
exact model of IEEE-754 binary64 arithmetic on scaled naturals is used (see
the `f64` definitions below).  Machine-level details that the claims do not
touch (the HTTP transport, Loki stream formatting, CPU/memory gauges) are not
modelled; the state effects of the functions that contain them are.
-/

mutual
/-- JSON-serializable values, as produced by `JSON.parse`: strings, numbers,
booleans, `null`, arrays and plain objects.  Objects are association lists in
key order; JavaScript objects never hold the same key twice.  The mutual
presentation (`Json` / `JArr` / `JObj`) keeps recursion and induction
structural. -/
inductive Json where
  | str : String → Json
  | num : ℚ → Json
  | bool : Bool → Json
  | null : Json
  | arr : JArr → Json
  | obj : JObj → Json
deriving DecidableEq
inductive JArr where
  | nil : JArr
  | cons : Json → JArr → JArr
deriving DecidableEq
inductive JObj where
  | nil : JObj
  | cons : String → Json → JObj → JObj
deriving DecidableEq
end

namespace Logger

/-- logger.js:22 — `const sensitiveFields = ['password', 'token', 'auth',
'authorization', 'jwt', 'secret'];` -/
def sensitiveFields : List String :=
  ["password", "token", "auth", "authorization", "jwt", "secret"]

/-- Whether `needle` occurs as a contiguous substring of `hay` (character
lists); models JavaScript `String.prototype.includes`. -/
def containsSub (needle hay : List Char) : Bool :=
  hay.tails.any (fun t => needle.isPrefixOf t)

/-- logger.js:28 — `sensitiveFields.some(field => key.toLowerCase().includes(field))`.
The keys in question are ASCII, for which `toLowerCase` lowercases each
character. -/
def isSensitiveKey (k : String) : Bool :=
  sensitiveFields.any (fun f => containsSub f.toList (k.toList.map Char.toLower))

/-- logger.js:29 — the fixed redaction marker. -/
def redactedMarker : String := "***REDACTED***"

mutual
/-- logger.js:24-34 — `recursiveSanitize`.  The JavaScript walks `for (const
key in obj)`: a key whose lowercase form contains a sensitive substring has
its value replaced by the marker; otherwise, when the value satisfies
`typeof obj[key] === 'object'` (true of objects, arrays and `null` alike),
it is recursed into; other values are left untouched.  A `for..in` walk of an
array yields the index strings "0", "1", …, none of which contains a
sensitive substring, so array elements are never redacted directly but are
recursed into when object-typed.  `recursiveSanitize(null)` returns at once,
leaving `null` unchanged, which the catch-all of `recursiveSanitize` below
reproduces. -/
def recursiveSanitize : Json → Json
  | .obj kvs => .obj (recursiveSanitizeObj kvs)
  | .arr xs => .arr (recursiveSanitizeArr xs)
  | v => v
def recursiveSanitizeArr : JArr → JArr
  | .nil => .nil
  | .cons v rest => .cons (recursiveSanitize v) (recursiveSanitizeArr rest)
def recursiveSanitizeObj : JObj → JObj
  | .nil => .nil
  | .cons k v rest =>
      .cons k (if isSensitiveKey k then Json.str redactedMarker else recursiveSanitize v)
        (recursiveSanitizeObj rest)
end

/-- logger.js:16-38 — `sanitize(data)`.  On `Json` values the
`JSON.parse(JSON.stringify(data))` deep copy is the identity, and the
`if (!data) return data` guard is transparent: the falsy JSON values
(`null`, `false`, `0`, `""`) are primitives, which `recursiveSanitize`
leaves unchanged anyway.  So `sanitize` coincides with `recursiveSanitize`. -/
def sanitize : Json → Json := recursiveSanitize

/-- Whether `v` is the fixed redaction marker string. -/
def isMarker : Json → Bool
  | .str s => s = redactedMarker
  | _ => false

mutual
/-- Every sensitive key, at every nesting depth (through objects and arrays
alike), carries the redaction marker as its value. -/
def allSensitiveRedacted : Json → Bool
  | .obj kvs => allSensitiveRedactedObj kvs
  | .arr xs => allSensitiveRedactedArr xs
  | _ => true
def allSensitiveRedactedArr : JArr → Bool
  | .nil => true
  | .cons v rest => allSensitiveRedacted v && allSensitiveRedactedArr rest
def allSensitiveRedactedObj : JObj → Bool
  | .nil => true
  | .cons k v rest =>
      (if isSensitiveKey k then isMarker v else allSensitiveRedacted v)
        && allSensitiveRedactedObj rest
end

mutual
/-- No key at any nesting depth is sensitive: such a value contains nothing
for the sanitizer to replace. -/
def noSensitiveKeys : Json → Bool
  | .obj kvs => noSensitiveKeysObj kvs
  | .arr xs => noSensitiveKeysArr xs
  | _ => true
def noSensitiveKeysArr : JArr → Bool
  | .nil => true
  | .cons v rest => noSensitiveKeys v && noSensitiveKeysArr rest
def noSensitiveKeysObj : JObj → Bool
  | .nil => true
  | .cons k v rest => !isSensitiveKey k && noSensitiveKeys v && noSensitiveKeysObj rest
end

/-- Every element of the array is a primitive (not an object, not an array). -/
def allPrimitive : JArr → Bool
  | .nil => true
  | .cons v rest =>
      (match v with
        | .obj _ => false
        | .arr _ => false
        | _ => true) && allPrimitive rest

/-- First-match association lookup in a JSON object.  JavaScript objects hold
each key at most once, so first-match agrees with the object's key map. -/
def lookupKey (k : String) : JObj → Option Json
  | .nil => none
  | .cons k' v rest => if k' = k then some v else lookupKey k rest

/-- logger.js:41-50 — the record built by `Logger.log(level, type, message,
details)`:

```
const logEntry = { level, type, message, ...sanitizedDetails,
                   timestamp: new Date().toISOString() };
```

The record is modelled by its key map.  Spread places the sanitized detail
keys at the record's top level, after the three literal properties and before
`timestamp`; a later property overwrites an earlier one of the same name, so
a detail key named `level`, `type` or `message` overrides the argument, while
`timestamp` always wins because it is written last. -/
def buildLogEntry (level type message : Json) (details : JObj) (timestamp : String) :
    String → Option Json :=
  fun k =>
    if k = "timestamp" then some (.str timestamp)
    else
      match lookupKey k (recursiveSanitizeObj details) with
      | some v => some v
      | none =>
          if k = "level" then some level
          else if k = "type" then some type
          else if k = "message" then some message
          else none

/-- Outcome of one `Logger.flush()` attempt: the buffer it leaves behind, the
number of `sendToGrafana` delivery calls it made, and the batch it delivered
(if the delivery succeeded). -/
structure FlushOutcome where
  buffer : List ℕ
  deliveryCalls : ℕ
  delivered : Option (List ℕ)
deriving DecidableEq

/-- logger.js:147-162 — one `flush()` attempt, as a function of its inputs.
Log records are identified by numeric ids; `buf` is `logBuffer` on entry,
`configured` is `config.logging && config.logging.url`, `arrivals` are the
records `Logger.log` pushes while the delivery `await` is outstanding, and
`ok` says whether `sendToGrafana` succeeded.

The body mirrors the source: an empty buffer or missing configuration is a
no-op (0 delivery calls; arrivals simply accumulate afterwards); otherwise the
buffer is swapped out synchronously (`logsToSend = [...logBuffer];
logBuffer = []`), so arrivals land in the fresh buffer; one delivery call is
made; on failure the whole batch is put back in front of the current buffer
(`this.logBuffer.unshift(...logsToSend)`). -/
def flush (configured : Bool) (buf arrivals : List ℕ) (ok : Bool) : FlushOutcome :=
  if buf = [] then ⟨buf ++ arrivals, 0, none⟩
  else if !configured then ⟨buf ++ arrivals, 0, none⟩
  else if ok then ⟨arrivals, 1, some buf⟩
  else ⟨buf ++ arrivals, 1, none⟩

end Logger

/-- State of the log pipeline of logger.js, for reasoning about interleavings
of `Logger.log` with concurrently pending `Logger.flush` calls (the logging
destination is taken as configured, or no flush would ever start).  Records
are identified by the numeric ids `0, 1, 2, …` in the order `Logger.log`
created them.  `buffer` is `this.logBuffer`; `pending` holds the swapped-out
batch of every flush whose `await this.sendToGrafana(...)` has not resolved
yet (oldest first); `delivered` records the batch of every delivery that
succeeded, in completion order. -/
structure LogState where
  nextId : ℕ
  buffer : List ℕ
  pending : List (List ℕ)
  delivered : List (List ℕ)
deriving DecidableEq

/-- The state before any logging: empty buffer, no flush in flight. -/
def logInit : LogState := ⟨0, [], [], []⟩

/-- Interleaving semantics of logger.js.  JavaScript runs each synchronous
section to completion, so each step below is one such atomic section:

* `append` — `Logger.log` (logger.js:58) pushes a fresh record onto the
  buffer;
* `flushStart` — a flush begins (threshold-triggered from `Logger.log`
  at logger.js:61-63 or fired by the 5-second `setInterval` of
  logger.js:11, which may fire at any time): `flush()` passes the
  emptiness check and synchronously swaps the whole buffer out
  (logger.js:148,151-152), then suspends on the delivery `await`;
* `flushOk` — a pending delivery resolves successfully; its batch is gone
  from the process and recorded as delivered;
* `flushFail` — a pending delivery fails; `flush()`'s catch handler puts
  the whole batch back in front of whatever the buffer now holds
  (logger.js:160).

Nothing in the source prevents a flush from starting while another one is
suspended on its `await`, so `flushStart` carries no such side condition. -/
inductive LogStep : LogState → LogState → Prop where
  | append (s : LogState) :
      LogStep s ⟨s.nextId + 1, s.buffer ++ [s.nextId], s.pending, s.delivered⟩
  | flushStart (s : LogState) (h : s.buffer ≠ []) :
      LogStep s ⟨s.nextId, [], s.pending ++ [s.buffer], s.delivered⟩
  | flushOk (s : LogState) (p₁ p₂ : List (List ℕ)) (batch : List ℕ)
      (h : s.pending = p₁ ++ batch :: p₂) :
      LogStep s ⟨s.nextId, s.buffer, p₁ ++ p₂, s.delivered ++ [batch]⟩
  | flushFail (s : LogState) (p₁ p₂ : List (List ℕ)) (batch : List ℕ)
      (h : s.pending = p₁ ++ batch :: p₂) :
      LogStep s ⟨s.nextId, batch ++ s.buffer, p₁ ++ p₂, s.delivered⟩

/-- The log-pipeline states reachable from start-up. -/
def LogReachable : LogState → Prop :=
  Relation.ReflTransGen LogStep logInit

/-- All record ids alive in a state: buffered, in some in-flight batch, or
already delivered.  Its `Nodup` says no record exists twice anywhere — in
particular no record is in two delivered batches (never delivered twice) and
no record is in two concurrently pending batches. -/
def liveList (s : LogState) : List ℕ :=
  s.buffer ++ s.pending.flatten ++ s.delivered.flatten

/-- C8's statement as the spec makes it: a new flush never begins while a
previous flush is still pending — i.e. at most one flush is ever in flight. -/
def FlushExclusiveClaim : Prop :=
  ∀ s : LogState, LogReachable s → s.pending.length ≤ 1

/-- The log pipeline's safety invariant: every live record id occurs exactly
once across buffer, in-flight batches and delivered batches, and all ids were
issued by `Logger.log`. -/
def LogInv (s : LogState) : Prop :=
  (liveList s).Nodup ∧ ∀ i ∈ liveList s, i < s.nextId

/-- metrics.js:24-46 — the fields of the `Metrics` singleton that the claims
concern.  JavaScript numbers are modelled as `ℚ` where fractional values
occur (revenue, latencies) and as `ℕ` for the integer counters; the
`activeUsers` JavaScript `Set` is a `Finset` of numeric user ids. -/
structure MetricsState where
  totalRequests : ℕ
  getRequests : ℕ
  postRequests : ℕ
  putRequests : ℕ
  deleteRequests : ℕ
  activeUsers : Finset ℕ
  authAttempts : ℕ
  authSuccesses : ℕ
  authFailures : ℕ
  pizzasSold : ℕ
  pizzaCreationFails : ℕ
  revenue : ℚ
  serviceLatencies : List ℚ
  pizzaLatencies : List ℚ
deriving DecidableEq

/-- metrics.js:26-42 — the constructor's initial values: all counters zero,
the user set empty, both latency lists empty. -/
def initMetrics : MetricsState :=
  ⟨0, 0, 0, 0, 0, ∅, 0, 0, 0, 0, 0, 0, [], []⟩

namespace Metrics

/-- metrics.js:48-56 — `incrementRequests(req)`, taking `req.method` directly:
the total counter always increments; exactly one per-method counter
increments when the method is GET, POST, PUT or DELETE; any other method
leaves the per-method counters alone. -/
def incrementRequests (s : MetricsState) (method : String) : MetricsState :=
  let s := { s with totalRequests := s.totalRequests + 1 }
  if method = "GET" then { s with getRequests := s.getRequests + 1 }
  else if method = "POST" then { s with postRequests := s.postRequests + 1 }
  else if method = "PUT" then { s with putRequests := s.putRequests + 1 }
  else if method = "DELETE" then { s with deleteRequests := s.deleteRequests + 1 }
  else s

/-- metrics.js:58-62 — `trackActiveUser(userId)`: `if (userId)` guards the
insertion, so only a truthy id is added.  User ids are the numeric database
ids; the falsy numbers (`0`, and an absent id read as `undefined`) are
modelled by `0`. -/
def trackActiveUser (s : MetricsState) (userId : ℕ) : MetricsState :=
  if userId ≠ 0 then { s with activeUsers := insert userId s.activeUsers } else s

/-- metrics.js:64-71 — `trackAuthAttempt(success)`. -/
def trackAuthAttempt (s : MetricsState) (success : Bool) : MetricsState :=
  let s := { s with authAttempts := s.authAttempts + 1 }
  if success then { s with authSuccesses := s.authSuccesses + 1 }
  else { s with authFailures := s.authFailures + 1 }

/-- metrics.js:73-84 — `trackPizzaPurchase(success, latency, pizzaCount,
revenue)`.  On success the sold counter and the revenue accumulator grow; on
failure the failure counter grows.  The latency push is guarded by
`if (latency)`, JavaScript truthiness: an absent latency (`none`) and a zero
latency are both falsy and are not pushed; any nonzero latency is pushed. -/
def trackPizzaPurchase (s : MetricsState) (success : Bool) (latency : Option ℚ)
    (pizzaCount : ℕ) (revenue : ℚ) : MetricsState :=
  let s :=
    if success then
      { s with pizzasSold := s.pizzasSold + pizzaCount, revenue := s.revenue + revenue }
    else { s with pizzaCreationFails := s.pizzaCreationFails + pizzaCount }
  match latency with
  | some l => if l ≠ 0 then { s with pizzaLatencies := s.pizzaLatencies ++ [l] } else s
  | none => s

/-- metrics.js:86-88 — `trackServiceLatency(latency)`. -/
def trackServiceLatency (s : MetricsState) (latency : ℚ) : MetricsState :=
  { s with serviceLatencies := s.serviceLatencies ++ [latency] }

/-- metrics.js:145-197 — the state effect of `sendMetricsToGrafana()`.  When
metrics are unconfigured the function returns at the top and the state is
untouched.  When configured it builds and posts the wire payload (network
effects not modelled; `sendToGrafana` swallows its own errors) and then —
unconditionally — resets the two latency arrays (metrics.js:195-196).  No
other field is assigned anywhere in the function. -/
def sendMetricsToGrafana (configured : Bool) (s : MetricsState) : MetricsState :=
  if configured then { s with serviceLatencies := [], pizzaLatencies := [] } else s

/-- metrics.js:161 — the value exported for the `active_users` gauge:
`this.activeUsers.size`. -/
def exportedActiveUsers (s : MetricsState) : ℕ :=
  s.activeUsers.card

end Metrics

/-- One call into the `Metrics` aggregator, for quantifying over arbitrary
call sequences: the five tracking entry points plus the periodic export. -/
inductive MetricsOp where
  | request : String → MetricsOp
  | activeUser : ℕ → MetricsOp
  | authAttempt : Bool → MetricsOp
  | pizzaPurchase : Bool → Option ℚ → ℕ → ℚ → MetricsOp
  | serviceLatency : ℚ → MetricsOp
  | exportMetrics : Bool → MetricsOp

/-- Apply one aggregator call to the state. -/
def applyMetricsOp (s : MetricsState) : MetricsOp → MetricsState
  | .request m => Metrics.incrementRequests s m
  | .activeUser uid => Metrics.trackActiveUser s uid
  | .authAttempt b => Metrics.trackAuthAttempt s b
  | .pizzaPurchase b l c r => Metrics.trackPizzaPurchase s b l c r
  | .serviceLatency l => Metrics.trackServiceLatency s l
  | .exportMetrics cfg => Metrics.sendMetricsToGrafana cfg s

/-- A request method the per-method counters do not recognize. -/
def unrecognizedMethod (m : String) : Bool :=
  !(m = "GET" || m = "POST" || m = "PUT" || m = "DELETE")

/-- The distinct truthy user ids passed to `trackActiveUser` over a call
sequence — what "distinct active users since process start" denotes. -/
def trackedIds (ops : List MetricsOp) : Finset ℕ :=
  ops.foldl
    (fun acc op =>
      match op with
      | .activeUser uid => if uid ≠ 0 then insert uid acc else acc
      | _ => acc) ∅

/-- Floor of log₂ by explicit fuel (64 bits is enough for every number in
this development); structural, so the kernel can evaluate it. -/
def log2fuel : ℕ → ℕ → ℕ
  | 0, _ => 0
  | fuel + 1, n => if n < 2 then 0 else log2fuel fuel (n / 2) + 1

/-- Number of binary digits of `n`. -/
def bitLen (n : ℕ) : ℕ := if n = 0 then 0 else log2fuel 64 n + 1

/-- Round `n / d` to the nearest integer, ties to even — the IEEE-754
default rounding. -/
def roundNearestEven (n d : ℕ) : ℕ :=
  let q := n / d
  let r := n % d
  if d < 2 * r then q + 1
  else if 2 * r < d then q
  else if q % 2 = 0 then q else q + 1

/-- IEEE-754 binary64 rounding, on nonnegative dyadic rationals scaled by
`2 ^ 56`: `f64n n` is `2 ^ 56 ·` (the binary64 double nearest to
`n / 2 ^ 56`).  A natural below `2 ^ 53` fits the 53-bit significand exactly;
otherwise the value is rounded, ties to even, to a multiple of its unit in
the last place, `2 ^ (bitLen n - 53)` at this scale.  Exact for every value
in this development (all lie far inside the normal, non-overflowing range). -/
def f64n (n : ℕ) : ℕ :=
  if n < 2 ^ 53 then n
  else
    let k := bitLen n - 53
    roundNearestEven n (2 ^ k) * 2 ^ k

/-- Binary64 addition of two scaled doubles: both summands are multiples of
`2 ^ (-56)`, so their exact sum is too, and the machine result is that sum
rounded back to a double. -/
def f64add (a b : ℕ) : ℕ := f64n (a + b)

/-- The binary64 double denoted by the literal `0.10`, scaled by `2 ^ 56`:
`0.10` lies in `[2 ^ (-4), 2 ^ (-3))`, so its unit in the last place is
`2 ^ (-56)` and the double is `2 ^ 56 / 10` rounded to the nearest integer,
ties to even. -/
def float64Tenth : ℕ := roundNearestEven (2 ^ 56) 10

/-- metrics.js:76 at machine precision — the revenue accumulator (scaled by
`2 ^ 56`) after `n` successful purchases each executing
`this.revenue += 0.10` in binary64 arithmetic. -/
def revenueFloat : ℕ → ℕ
  | 0 => 0
  | n + 1 => f64add (revenueFloat n) float64Tenth

/-- metrics.js:175 — `this.revenue.toFixed(4)`: ECMA-262 `toFixed` picks the
integer `m` minimizing `|m / 10 ^ 4 - x|`, the larger `m` on a tie.  For the
scaled accumulator `n` the exported decimal is `jsToFixed4 n / 10 ^ 4`. -/
def jsToFixed4 (n : ℕ) : ℕ :=
  n * 10 ^ 4 / 2 ^ 56 + (if 2 ^ 56 ≤ 2 * (n * 10 ^ 4 % 2 ^ 56) then 1 else 0)

namespace Logger

mutual
/-- The sanitizer is idempotent on every JSON value. -/
theorem recursiveSanitize_idem : ∀ v, recursiveSanitize (recursiveSanitize v) = recursiveSanitize v
  | .str _ => rfl
  | .num _ => rfl
  | .bool _ => rfl
  | .null => rfl
  | .arr xs => by simp [recursiveSanitize, recursiveSanitizeArr_idem xs]
  | .obj kvs => by simp [recursiveSanitize, recursiveSanitizeObj_idem kvs]
theorem recursiveSanitizeArr_idem :
    ∀ xs, recursiveSanitizeArr (recursiveSanitizeArr xs) = recursiveSanitizeArr xs
  | .nil => rfl
  | .cons v rest => by
      simp [recursiveSanitizeArr, recursiveSanitize_idem v, recursiveSanitizeArr_idem rest]
theorem recursiveSanitizeObj_idem :
    ∀ kvs, recursiveSanitizeObj (recursiveSanitizeObj kvs) = recursiveSanitizeObj kvs
  | .nil => rfl
  | .cons k v rest => by
      by_cases h : isSensitiveKey k
      · simp [recursiveSanitizeObj, h, recursiveSanitize, recursiveSanitizeObj_idem rest]
      · simp [recursiveSanitizeObj, h, recursiveSanitize_idem v, recursiveSanitizeObj_idem rest]
end

mutual
/-- After sanitizing, every sensitive key at every depth carries the marker. -/
theorem allSensitiveRedacted_sanitize :
    ∀ v, allSensitiveRedacted (recursiveSanitize v) = true
  | .str _ => rfl
  | .num _ => rfl
  | .bool _ => rfl
  | .null => rfl
  | .arr xs => by
      simp [recursiveSanitize, allSensitiveRedacted, allSensitiveRedactedArr_sanitize xs]
  | .obj kvs => by
      simp [recursiveSanitize, allSensitiveRedacted, allSensitiveRedactedObj_sanitize kvs]
theorem allSensitiveRedactedArr_sanitize :
    ∀ xs, allSensitiveRedactedArr (recursiveSanitizeArr xs) = true
  | .nil => rfl
  | .cons v rest => by
      simp [recursiveSanitizeArr, allSensitiveRedactedArr, allSensitiveRedacted_sanitize v,
        allSensitiveRedactedArr_sanitize rest]
theorem allSensitiveRedactedObj_sanitize :
    ∀ kvs, allSensitiveRedactedObj (recursiveSanitizeObj kvs) = true
  | .nil => rfl
  | .cons k v rest => by
      by_cases h : isSensitiveKey k
      · simp [recursiveSanitizeObj, allSensitiveRedactedObj, h, isMarker,
          allSensitiveRedactedObj_sanitize rest]
      · simp [recursiveSanitizeObj, allSensitiveRedactedObj, h,
          allSensitiveRedacted_sanitize v, allSensitiveRedactedObj_sanitize rest]
end

mutual
/-- A value with no sensitive key anywhere passes through untouched: the
sanitizer changes nothing but sensitive keys' values. -/
theorem recursiveSanitize_clean : ∀ v, noSensitiveKeys v = true → recursiveSanitize v = v
  | .str _, _ => rfl
  | .num _, _ => rfl
  | .bool _, _ => rfl
  | .null, _ => rfl
  | .arr xs, h => by
      simp only [recursiveSanitize]
      rw [recursiveSanitizeArr_clean xs (by simpa [noSensitiveKeys] using h)]
  | .obj kvs, h => by
      simp only [recursiveSanitize]
      rw [recursiveSanitizeObj_clean kvs (by simpa [noSensitiveKeys] using h)]
theorem recursiveSanitizeArr_clean :
    ∀ xs, noSensitiveKeysArr xs = true → recursiveSanitizeArr xs = xs
  | .nil, _ => rfl
  | .cons v rest, h => by
      simp only [noSensitiveKeysArr, Bool.and_eq_true] at h
      simp only [recursiveSanitizeArr]
      rw [recursiveSanitize_clean v h.1, recursiveSanitizeArr_clean rest h.2]
theorem recursiveSanitizeObj_clean :
    ∀ kvs, noSensitiveKeysObj kvs = true → recursiveSanitizeObj kvs = kvs
  | .nil, _ => rfl
  | .cons k v rest, h => by
      simp only [noSensitiveKeysObj, Bool.and_eq_true, Bool.not_eq_true'] at h
      simp only [recursiveSanitizeObj, h.1.1, if_false, Bool.false_eq_true]
      rw [recursiveSanitize_clean v h.1.2, recursiveSanitizeObj_clean rest h.2]
end

/-- An array of primitives is left untouched by the sanitizer. -/
theorem recursiveSanitizeArr_primitive :
    ∀ xs, allPrimitive xs = true → recursiveSanitizeArr xs = xs
  | .nil, _ => rfl
  | .cons v rest, h => by
      simp only [allPrimitive, Bool.and_eq_true] at h
      have hv : recursiveSanitize v = v := by
        cases v <;> first | rfl | (exact absurd h.1 (by simp))
      simp only [recursiveSanitizeArr]
      rw [hv, recursiveSanitizeArr_primitive rest h.2]

end Logger

/-- C4: on every JSON-serializable mapping, `sanitize` replaces the value of
every key — at every nesting depth — whose lowercase form contains one of
`password, token, auth, authorization, jwt, secret` with `"***REDACTED***"`,
leaves the values of non-matching keys intact, maps
`{password:"x", nested:{token:"y", keep:"z"}}` to
`{password:"***REDACTED***", nested:{token:"***REDACTED***", keep:"z"}}`,
and is idempotent. -/
theorem c4_sanitize_redacts (v w : Json) (hw : Logger.noSensitiveKeys w = true) :
    Logger.sanitize (.obj (.cons "password" (.str "x") (.cons "nested"
        (.obj (.cons "token" (.str "y") (.cons "keep" (.str "z") .nil))) .nil)))
      = .obj (.cons "password" (.str "***REDACTED***") (.cons "nested"
        (.obj (.cons "token" (.str "***REDACTED***") (.cons "keep" (.str "z") .nil))) .nil)) ∧
    Logger.allSensitiveRedacted (Logger.sanitize v) = true ∧
    Logger.sanitize w = w ∧
    Logger.sanitize (Logger.sanitize v) = Logger.sanitize v := by
  refine ⟨by decide, ?_, ?_, ?_⟩
  · exact Logger.allSensitiveRedacted_sanitize v
  · exact Logger.recursiveSanitize_clean w hw
  · exact Logger.recursiveSanitize_idem v

/-- C4 witness: the theorem applied to the spec's own example and the clean
value `"z"`. -/
theorem c4_witness :
    Logger.noSensitiveKeys (.str "z") = true ∧
    (Logger.sanitize (.obj (.cons "password" (.str "x") (.cons "nested"
        (.obj (.cons "token" (.str "y") (.cons "keep" (.str "z") .nil))) .nil)))
      = .obj (.cons "password" (.str "***REDACTED***") (.cons "nested"
        (.obj (.cons "token" (.str "***REDACTED***") (.cons "keep" (.str "z") .nil))) .nil)) ∧
    Logger.allSensitiveRedacted (Logger.sanitize (.obj (.cons "password" (.str "x") .nil))) = true ∧
    Logger.sanitize (.str "z") = .str "z" ∧
    Logger.sanitize (Logger.sanitize (.obj (.cons "password" (.str "x") .nil)))
      = Logger.sanitize (.obj (.cons "password" (.str "x") .nil))) :=
  ⟨by decide, c4_sanitize_redacts (.obj (.cons "password" (.str "x") .nil)) (.str "z") (by decide)⟩

/-- C5 counterexample: the claim says a mapping reachable only as an array
element is not descended into, so its sensitive keys are not replaced.  In
the source, `typeof obj[key] === 'object'` is true of arrays, so
`recursiveSanitize` descends through arrays: sanitizing `[ {token:"y"} ]`
redacts the nested `token`, changing the value — the claim is false on this
input. -/
theorem c5_counterexample :
    Logger.sanitize (.arr (.cons (.obj (.cons "token" (.str "y") .nil)) .nil))
      = .arr (.cons (.obj (.cons "token" (.str "***REDACTED***") .nil)) .nil) ∧
    Logger.sanitize (.arr (.cons (.obj (.cons "token" (.str "y") .nil)) .nil))
      ≠ .arr (.cons (.obj (.cons "token" (.str "y") .nil)) .nil) := by
  constructor
  · decide
  · decide

/-- C5 amended: the sanitizer's recursion descends into every object-typed
value in the JavaScript sense — arrays included, since `typeof` of an array
is `'object'`.  Arrays whose elements are all primitives are indeed left
untouched (array indices are never sensitive keys), but a mapping that is an
element of an array IS descended into, its sensitive keys replaced like any
other. -/
theorem c5_amended (xs : JArr) (h : Logger.allPrimitive xs = true)
    (kvs : JObj) (rest : JArr) :
    Logger.sanitize (.arr xs) = .arr xs ∧
    Logger.recursiveSanitizeArr (.cons (.obj kvs) rest)
      = .cons (.obj (Logger.recursiveSanitizeObj kvs)) (Logger.recursiveSanitizeArr rest) := by
  constructor
  · show Logger.recursiveSanitize _ = _
    simp only [Logger.recursiveSanitize]
    rw [Logger.recursiveSanitizeArr_primitive xs h]
  · rfl

/-- C5 witness: the amended theorem at the primitive array `["a"]` and the
array-nested mapping `{auth:"y"}`. -/
theorem c5_witness :
    Logger.allPrimitive (.cons (.str "a") .nil) = true ∧
    (Logger.sanitize (.arr (.cons (.str "a") .nil)) = .arr (.cons (.str "a") .nil) ∧
    Logger.recursiveSanitizeArr (.cons (.obj (.cons "auth" (.str "y") .nil)) .nil)
      = .cons (.obj (Logger.recursiveSanitizeObj (.cons "auth" (.str "y") .nil)))
          (Logger.recursiveSanitizeArr .nil)) :=
  ⟨by decide, c5_amended (.cons (.str "a") .nil) (by decide) (.cons "auth" (.str "y") .nil) .nil⟩

/-- C9: `Logger.log` spreads the sanitized details into the top level of the
buffered record (not under a `fields` key): every key of the sanitized
details other than `timestamp` appears at top level with its sanitized value,
overriding `level`, `type` or `message` arguments when so named, while the
`timestamp` key always holds the record-creation timestamp, even if the
details carried one. -/
theorem c9_log_spread (level type message : Json) (details : JObj) (ts : String) :
    (∀ k v, k ≠ "timestamp" →
        Logger.lookupKey k (Logger.recursiveSanitizeObj details) = some v →
        Logger.buildLogEntry level type message details ts k = some v) ∧
    Logger.buildLogEntry level type message details ts "timestamp" = some (.str ts) ∧
    (Logger.lookupKey "fields" (Logger.recursiveSanitizeObj details) = none →
        Logger.buildLogEntry level type message details ts "fields" = none) := by
  refine ⟨?_, ?_, ?_⟩
  · intro k v hk hv
    simp [Logger.buildLogEntry, hk, hv]
  · simp [Logger.buildLogEntry]
  · intro h
    simp [Logger.buildLogEntry, h]

/-- C9 witness: details `{level:"debug", jwt:"t"}` with a `level` key
overriding the `level` argument, the timestamp argument winning, and no
`fields` key appearing. -/
theorem c9_witness :
    Logger.buildLogEntry (.str "info") (.str "http") (.str "m")
        (.cons "level" (.str "debug") (.cons "jwt" (.str "t") .nil)) "2025-01-01" "level"
      = some (.str "debug") ∧
    Logger.buildLogEntry (.str "info") (.str "http") (.str "m")
        (.cons "level" (.str "debug") (.cons "jwt" (.str "t") .nil)) "2025-01-01" "timestamp"
      = some (.str "2025-01-01") ∧
    Logger.buildLogEntry (.str "info") (.str "http") (.str "m")
        (.cons "level" (.str "debug") (.cons "jwt" (.str "t") .nil)) "2025-01-01" "fields"
      = none := by
  have h := c9_log_spread (.str "info") (.str "http") (.str "m")
    (.cons "level" (.str "debug") (.cons "jwt" (.str "t") .nil)) "2025-01-01"
  exact ⟨h.1 "level" (.str "debug") (by decide) (by decide), h.2.1, h.2.2 (by decide)⟩

/-- C1: when `flush()` attempts delivery of a non-empty buffer (logging
configured) and the delivery fails, the whole attempted batch is put back at
the front of the buffer, in its original relative order, ahead of any records
appended while the delivery was outstanding — no record is lost — and the
attempt made exactly one delivery call; the next flush, succeeding with no
concurrent appends, empties the buffer, delivers exactly that content, and
again makes exactly one delivery call. -/
theorem c1_flush_requeue (buf arrivals : List ℕ) (h : buf ≠ []) :
    (Logger.flush true buf arrivals false).buffer = buf ++ arrivals ∧
    (Logger.flush true buf arrivals false).deliveryCalls = 1 ∧
    (Logger.flush true buf arrivals false).delivered = none ∧
    (Logger.flush true (buf ++ arrivals) [] true).buffer = [] ∧
    (Logger.flush true (buf ++ arrivals) [] true).deliveryCalls = 1 ∧
    (Logger.flush true (buf ++ arrivals) [] true).delivered = some (buf ++ arrivals) := by
  have h2 : buf ++ arrivals ≠ [] := fun hh => h (List.append_eq_nil.mp hh).1
  simp [Logger.flush, h, h2]

/-- C1 witness: the spec's round-trip test — records A,B,C as ids 0,1,2, a
failing flush followed by a succeeding one. -/
theorem c1_witness :
    (([0, 1, 2] : List ℕ) ≠ []) ∧
    ((Logger.flush true [0, 1, 2] [] false).buffer = [0, 1, 2] ++ [] ∧
    (Logger.flush true [0, 1, 2] [] false).deliveryCalls = 1 ∧
    (Logger.flush true [0, 1, 2] [] false).delivered = none ∧
    (Logger.flush true ([0, 1, 2] ++ []) [] true).buffer = [] ∧
    (Logger.flush true ([0, 1, 2] ++ []) [] true).deliveryCalls = 1 ∧
    (Logger.flush true ([0, 1, 2] ++ []) [] true).delivered = some ([0, 1, 2] ++ [])) :=
  ⟨by decide, c1_flush_requeue [0, 1, 2] [] (by decide)⟩

/-- Each step either permutes the live record ids (flush start, completion,
requeue merely move records between buffer, in-flight batches and the
delivered list) or extends them with the one fresh id `Logger.log` issued. -/
lemma logStep_live {s t : LogState} (hst : LogStep s t) :
    ((liveList t : Multiset ℕ) = (liveList s : Multiset ℕ) ∧ t.nextId = s.nextId) ∨
    ((liveList t : Multiset ℕ) = (liveList s : Multiset ℕ) + {s.nextId} ∧
      t.nextId = s.nextId + 1) := by
  cases hst with
  | append =>
      right
      refine ⟨?_, rfl⟩
      simp only [liveList, ← Multiset.coe_add]
      simp only [← Multiset.coe_singleton]
      abel
  | flushStart h =>
      left
      refine ⟨?_, rfl⟩
      simp only [liveList, List.flatten_append, List.flatten_cons, List.flatten_nil,
        List.append_nil, ← Multiset.coe_add, Multiset.coe_nil]
      abel
  | flushOk p₁ p₂ batch h =>
      left
      refine ⟨?_, rfl⟩
      simp only [liveList, h, List.flatten_append, List.flatten_cons, List.flatten_nil,
        List.append_nil, ← Multiset.coe_add]
      abel
  | flushFail p₁ p₂ batch h =>
      left
      refine ⟨?_, rfl⟩
      simp only [liveList, h, List.flatten_append, List.flatten_cons, List.flatten_nil,
        List.append_nil, ← Multiset.coe_add]
      abel

/-- The pipeline invariant is preserved by every step. -/
lemma logInv_step {s t : LogState} (hs : LogInv s) (hst : LogStep s t) : LogInv t := by
  obtain ⟨hnd, hbd⟩ := hs
  rcases logStep_live hst with ⟨heq, hid⟩ | ⟨heq, hid⟩
  · have hperm : List.Perm (liveList t) (liveList s) := Multiset.coe_eq_coe.mp heq
    exact ⟨hperm.nodup_iff.mpr hnd, fun i hi => hid ▸ hbd i (hperm.mem_iff.mp hi)⟩
  · have hnodup : (liveList t : Multiset ℕ).Nodup := by
      rw [heq, Multiset.nodup_add]
      refine ⟨Multiset.coe_nodup.mpr hnd, Multiset.nodup_singleton _, ?_⟩
      rw [Multiset.disjoint_singleton]
      intro hmem
      exact absurd (hbd _ (Multiset.mem_coe.mp hmem)) (lt_irrefl _)
    refine ⟨Multiset.coe_nodup.mp hnodup, fun i hi => ?_⟩
    have hmem : (i : ℕ) ∈ (liveList s : Multiset ℕ) + {s.nextId} := by
      rw [← heq]; exact Multiset.mem_coe.mpr hi
    rw [Multiset.mem_add, Multiset.mem_singleton] at hmem
    rcases hmem with h | h
    · exact hid ▸ Nat.lt_succ_of_lt (hbd i (Multiset.mem_coe.mp h))
    · omega

/-- The pipeline invariant holds in every reachable state. -/
lemma logInv_reachable {s : LogState} (h : LogReachable s) : LogInv s := by
  induction h with
  | refl => exact ⟨by simp [liveList, logInit], by simp [liveList, logInit]⟩
  | tail hr hstep ih => exact logInv_step ih hstep

/-- One record logged, a flush started on it. -/
lemma logStep₁ : LogStep logInit ⟨1, [0], [], []⟩ := LogStep.append logInit

/-- The first flush swaps out record 0 and suspends on its delivery. -/
lemma logStep₂ : LogStep ⟨1, [0], [], []⟩ ⟨1, [], [[0]], []⟩ :=
  LogStep.flushStart _ (by decide)

/-- While the first delivery is outstanding, `Logger.log` runs again. -/
lemma logStep₃ : LogStep ⟨1, [], [[0]], []⟩ ⟨2, [1], [[0]], []⟩ := LogStep.append _

/-- The 5-second periodic timer fires before the first delivery resolves:
a second flush begins while the first is still pending. -/
lemma logStep₄ : LogStep ⟨2, [1], [[0]], []⟩ ⟨2, [], [[0], [1]], []⟩ :=
  LogStep.flushStart _ (by decide)

/-- A state with two flushes simultaneously in flight is reachable. -/
lemma logReach₄ : LogReachable ⟨2, [], [[0], [1]], []⟩ :=
  ((((Relation.ReflTransGen.refl).tail logStep₁).tail logStep₂).tail logStep₃).tail logStep₄

/-- C8 counterexample: `flush()` takes no lock — nothing stops the periodic
timer from starting a second flush while a first one is suspended on its
delivery `await`.  The trace log, flush, log, flush reaches a state with two
batches in flight, refuting "a new flush never begins while a previous flush
is still pending". -/
theorem c8_counterexample : ¬ FlushExclusiveClaim := by
  intro h
  have h2 := h ⟨2, [], [[0], [1]], []⟩ logReach₄
  simp at h2

/-- C8 amended: flushes are not mutually exclusive (two can be in flight at
once), but what the exclusion was meant to ensure still holds: because
`flush()` swaps the buffer out synchronously before suspending, every log
record lives in exactly one place, so concurrent in-flight batches are
pairwise disjoint and no record is ever delivered twice — in any reachable
state the delivered batches concatenate without repetition. -/
theorem c8_no_duplicate_delivery (s : LogState) (h : LogReachable s) :
    (liveList s).Nodup ∧ s.delivered.flatten.Nodup ∧ s.pending.flatten.Nodup := by
  have hinv := (logInv_reachable h).1
  have h2 := hinv
  rw [liveList, List.nodup_append, List.nodup_append] at h2
  exact ⟨hinv, h2.2.1, h2.1.2.1⟩

/-- C8 witness: the amended theorem at the concrete reachable state with two
in-flight batches `[0]` and `[1]`. -/
theorem c8_witness :
    LogReachable ⟨2, [], [[0], [1]], []⟩ ∧
    ((liveList ⟨2, [], [[0], [1]], []⟩).Nodup ∧
      (LogState.mk 2 [] [[0], [1]] []).delivered.flatten.Nodup ∧
      (LogState.mk 2 [] [[0], [1]] []).pending.flatten.Nodup) :=
  ⟨logReach₄, c8_no_duplicate_delivery ⟨2, [], [[0], [1]], []⟩ logReach₄⟩

/-- C2: the periodic export clears only the two latency sample lists; every
counter — request totals and per-method counts, auth counts, pizza counts,
revenue — and the active-user set keep their values across the export, and
an unconfigured export touches nothing at all. -/
theorem c2_export_clears_only_latencies (s : MetricsState) :
    (Metrics.sendMetricsToGrafana true s).totalRequests = s.totalRequests ∧
    (Metrics.sendMetricsToGrafana true s).getRequests = s.getRequests ∧
    (Metrics.sendMetricsToGrafana true s).postRequests = s.postRequests ∧
    (Metrics.sendMetricsToGrafana true s).putRequests = s.putRequests ∧
    (Metrics.sendMetricsToGrafana true s).deleteRequests = s.deleteRequests ∧
    (Metrics.sendMetricsToGrafana true s).activeUsers = s.activeUsers ∧
    (Metrics.sendMetricsToGrafana true s).authAttempts = s.authAttempts ∧
    (Metrics.sendMetricsToGrafana true s).authSuccesses = s.authSuccesses ∧
    (Metrics.sendMetricsToGrafana true s).authFailures = s.authFailures ∧
    (Metrics.sendMetricsToGrafana true s).pizzasSold = s.pizzasSold ∧
    (Metrics.sendMetricsToGrafana true s).pizzaCreationFails = s.pizzaCreationFails ∧
    (Metrics.sendMetricsToGrafana true s).revenue = s.revenue ∧
    (Metrics.sendMetricsToGrafana true s).serviceLatencies = [] ∧
    (Metrics.sendMetricsToGrafana true s).pizzaLatencies = [] ∧
    Metrics.sendMetricsToGrafana false s = s := by
  simp [Metrics.sendMetricsToGrafana]

/-- C3 counterexample: a latency of `0` ms is provided yet not appended —
`if (latency)` is a JavaScript truthiness test, and `0` is falsy.  The claim
"whenever latencyMs is provided, it is appended" fails at latency `0`. -/
theorem c3_counterexample :
    (Metrics.trackPizzaPurchase initMetrics true (some 0) 1 1).pizzaLatencies = [] ∧
    (Metrics.trackPizzaPurchase initMetrics true (some 0) 1 1).pizzaLatencies
      ≠ initMetrics.pizzaLatencies ++ [0] := by
  constructor
  · rfl
  · intro h
    simp [Metrics.trackPizzaPurchase, initMetrics] at h

/-- C3 amended: `trackPizzaPurchase(success, latencyMs, count, revenue)` adds
`count` to the sold counter and `revenue` to the revenue accumulator on
success, adds `count` to the failure counter on failure, and appends
`latencyMs` to the pizza latency list — regardless of success or failure —
whenever `latencyMs` is provided and truthy (nonzero); a missing or zero
latency is not appended. -/
theorem c3_amended (s : MetricsState) (lat : Option ℚ) (cnt : ℕ) (rev : ℚ) :
    (Metrics.trackPizzaPurchase s true lat cnt rev).pizzasSold = s.pizzasSold + cnt ∧
    (Metrics.trackPizzaPurchase s true lat cnt rev).revenue = s.revenue + rev ∧
    (Metrics.trackPizzaPurchase s true lat cnt rev).pizzaCreationFails = s.pizzaCreationFails ∧
    (Metrics.trackPizzaPurchase s false lat cnt rev).pizzaCreationFails
      = s.pizzaCreationFails + cnt ∧
    (Metrics.trackPizzaPurchase s false lat cnt rev).pizzasSold = s.pizzasSold ∧
    (Metrics.trackPizzaPurchase s false lat cnt rev).revenue = s.revenue ∧
    (∀ b l, lat = some l → l ≠ 0 →
      (Metrics.trackPizzaPurchase s b lat cnt rev).pizzaLatencies = s.pizzaLatencies ++ [l]) ∧
    (∀ b, lat = none →
      (Metrics.trackPizzaPurchase s b lat cnt rev).pizzaLatencies = s.pizzaLatencies) ∧
    (∀ b, lat = some 0 →
      (Metrics.trackPizzaPurchase s b lat cnt rev).pizzaLatencies = s.pizzaLatencies) := by
  refine ⟨?_, ?_, ?_, ?_, ?_, ?_, ?_, ?_, ?_⟩
  · cases lat with
    | none => simp [Metrics.trackPizzaPurchase]
    | some l => by_cases hl : l = 0 <;> simp [Metrics.trackPizzaPurchase, hl]
  · cases lat with
    | none => simp [Metrics.trackPizzaPurchase]
    | some l => by_cases hl : l = 0 <;> simp [Metrics.trackPizzaPurchase, hl]
  · cases lat with
    | none => simp [Metrics.trackPizzaPurchase]
    | some l => by_cases hl : l = 0 <;> simp [Metrics.trackPizzaPurchase, hl]
  · cases lat with
    | none => simp [Metrics.trackPizzaPurchase]
    | some l => by_cases hl : l = 0 <;> simp [Metrics.trackPizzaPurchase, hl]
  · cases lat with
    | none => simp [Metrics.trackPizzaPurchase]
    | some l => by_cases hl : l = 0 <;> simp [Metrics.trackPizzaPurchase, hl]
  · cases lat with
    | none => simp [Metrics.trackPizzaPurchase]
    | some l => by_cases hl : l = 0 <;> simp [Metrics.trackPizzaPurchase, hl]
  · intro b l hl hz
    subst hl
    cases b <;> simp [Metrics.trackPizzaPurchase, hz]
  · intro b hl
    subst hl
    cases b <;> simp [Metrics.trackPizzaPurchase]
  · intro b hl
    subst hl
    cases b <;> simp [Metrics.trackPizzaPurchase]

/-- C3 witness: a successful and a failed purchase of 2 pizzas at revenue
0.30 with latency 7 ms. -/
theorem c3_witness :
    (Metrics.trackPizzaPurchase initMetrics true (some 7) 2 (3 / 10)).pizzasSold
      = initMetrics.pizzasSold + 2 ∧
    (Metrics.trackPizzaPurchase initMetrics true (some 7) 2 (3 / 10)).revenue
      = initMetrics.revenue + 3 / 10 ∧
    (Metrics.trackPizzaPurchase initMetrics false (some 7) 2 (3 / 10)).pizzaCreationFails
      = initMetrics.pizzaCreationFails + 2 ∧
    (Metrics.trackPizzaPurchase initMetrics true (some 7) 2 (3 / 10)).pizzaLatencies
      = initMetrics.pizzaLatencies ++ [7] := by
  have h := c3_amended initMetrics (some 7) 2 (3 / 10)
  exact ⟨h.1, h.2.1, h.2.2.2.1, h.2.2.2.2.2.2.1 true 7 rfl (by norm_num)⟩


/-- Componentwise effect of folding `incrementRequests` over a method
sequence from an arbitrary starting state. -/
lemma incrementRequests_fold (ms : List String) : ∀ s : MetricsState,
    (ms.foldl Metrics.incrementRequests s).totalRequests = s.totalRequests + ms.length ∧
    (ms.foldl Metrics.incrementRequests s).getRequests
      = s.getRequests + ms.countP (fun m => m = "GET") ∧
    (ms.foldl Metrics.incrementRequests s).postRequests
      = s.postRequests + ms.countP (fun m => m = "POST") ∧
    (ms.foldl Metrics.incrementRequests s).putRequests
      = s.putRequests + ms.countP (fun m => m = "PUT") ∧
    (ms.foldl Metrics.incrementRequests s).deleteRequests
      = s.deleteRequests + ms.countP (fun m => m = "DELETE") := by
  induction ms with
  | nil => intro s; simp
  | cons m rest ih =>
      intro s
      obtain ⟨h1, h2, h3, h4, h5⟩ := ih (Metrics.incrementRequests s m)
      simp only [List.foldl_cons, List.countP_cons, List.length_cons]
      rw [h1, h2, h3, h4, h5]
      by_cases hg : m = "GET"
      · subst hg; simp [Metrics.incrementRequests]; omega
      · by_cases hp : m = "POST"
        · subst hp; simp [Metrics.incrementRequests]; omega
        · by_cases hu : m = "PUT"
          · subst hu; simp [Metrics.incrementRequests]; omega
          · by_cases hd : m = "DELETE"
            · subst hd; simp [Metrics.incrementRequests]; omega
            · simp [Metrics.incrementRequests, hg, hp, hu, hd]; omega

/-- Every method falls in exactly one bucket: one of the four recognized
verbs, or unrecognized. -/
lemma length_countP_methods (ms : List String) :
    ms.length = ms.countP (fun m => m = "GET") + ms.countP (fun m => m = "POST")
      + ms.countP (fun m => m = "PUT") + ms.countP (fun m => m = "DELETE")
      + ms.countP unrecognizedMethod := by
  induction ms with
  | nil => simp
  | cons m rest ih =>
      simp only [List.countP_cons, List.length_cons]
      by_cases hg : m = "GET"
      · subst hg; simp [unrecognizedMethod]; omega
      · by_cases hp : m = "POST"
        · subst hp; simp [unrecognizedMethod]; omega
        · by_cases hu : m = "PUT"
          · subst hu; simp [unrecognizedMethod]; omega
          · by_cases hd : m = "DELETE"
            · subst hd; simp [unrecognizedMethod]; omega
            · simp [unrecognizedMethod, hg, hp, hu, hd]; omega

/-- C7: `incrementRequests` always succeeds, and after any sequence of calls
the total request counter equals the sum of the GET, POST, PUT and DELETE
per-method counters plus the number of calls whose method was unrecognized
(nothing ever resets these counters). -/
theorem c7_total_is_sum (ms : List String) :
    (ms.foldl Metrics.incrementRequests initMetrics).totalRequests
      = (ms.foldl Metrics.incrementRequests initMetrics).getRequests
        + (ms.foldl Metrics.incrementRequests initMetrics).postRequests
        + (ms.foldl Metrics.incrementRequests initMetrics).putRequests
        + (ms.foldl Metrics.incrementRequests initMetrics).deleteRequests
        + ms.countP unrecognizedMethod := by
  obtain ⟨h1, h2, h3, h4, h5⟩ := incrementRequests_fold ms initMetrics
  have hl := length_countP_methods ms
  rw [h1, h2, h3, h4, h5]
  simp only [initMetrics]
  omega

/-- No aggregator operation — the periodic export included — ever removes a
user id from the active-user set. -/
lemma activeUsers_mono (s : MetricsState) (op : MetricsOp) :
    s.activeUsers ⊆ (applyMetricsOp s op).activeUsers := by
  cases op with
  | request m =>
      simp only [applyMetricsOp, Metrics.incrementRequests]
      split_ifs <;> exact subset_rfl
  | activeUser uid =>
      simp only [applyMetricsOp, Metrics.trackActiveUser]
      split_ifs <;> first | exact Finset.subset_insert _ _ | exact subset_rfl
  | authAttempt b =>
      simp only [applyMetricsOp, Metrics.trackAuthAttempt]
      split_ifs <;> exact subset_rfl
  | pizzaPurchase b l c r =>
      cases l with
      | none =>
          simp only [applyMetricsOp, Metrics.trackPizzaPurchase]
          split_ifs <;> exact subset_rfl
      | some lv =>
          simp only [applyMetricsOp, Metrics.trackPizzaPurchase]
          split_ifs <;> exact subset_rfl
  | serviceLatency l =>
      exact subset_rfl
  | exportMetrics cfg =>
      simp only [applyMetricsOp, Metrics.sendMetricsToGrafana]
      split_ifs <;> exact subset_rfl

/-- The active-user set after any call sequence is exactly the set of
distinct truthy ids passed to `trackActiveUser`, accumulated from the
starting set. -/
lemma activeUsers_fold (ops : List MetricsOp) : ∀ s : MetricsState,
    (ops.foldl applyMetricsOp s).activeUsers
      = ops.foldl
          (fun acc op =>
            match op with
            | .activeUser uid => if uid ≠ 0 then insert uid acc else acc
            | _ => acc) s.activeUsers := by
  induction ops with
  | nil => intro s; rfl
  | cons op rest ih =>
      intro s
      simp only [List.foldl_cons]
      rw [ih]
      congr 1
      cases op with
      | request m =>
          simp only [applyMetricsOp, Metrics.incrementRequests]
          split_ifs <;> rfl
      | activeUser uid =>
          simp only [applyMetricsOp, Metrics.trackActiveUser]
          split_ifs <;> rfl
      | authAttempt b =>
          simp only [applyMetricsOp, Metrics.trackAuthAttempt]
          split_ifs <;> rfl
      | pizzaPurchase b l c r =>
          cases l with
          | none =>
              simp only [applyMetricsOp, Metrics.trackPizzaPurchase]
              split_ifs <;> rfl
          | some lv =>
              simp only [applyMetricsOp, Metrics.trackPizzaPurchase]
              split_ifs <;> rfl
      | serviceLatency l => rfl
      | exportMetrics cfg =>
          simp only [applyMetricsOp, Metrics.sendMetricsToGrafana]
          split_ifs <;> rfl

/-- C10 counterexample: the claim quantifies over every id passed to
`trackActiveUser`, but `if (userId)` is a truthiness guard — the falsy id
`0` is passed and never becomes a member. -/
theorem c10_counterexample :
    (0 : ℕ) ∉ (Metrics.trackActiveUser initMetrics 0).activeUsers ∧
    (Metrics.trackActiveUser initMetrics 0).activeUsers = ∅ := by
  constructor
  · decide
  · rfl

/-- C10 amended: every truthy (nonzero) id passed to `trackActiveUser`
becomes and remains a member — no aggregator operation, the export included,
ever clears the set — so the exported `active_users` gauge is monotonically
nondecreasing over any call sequence and counts the distinct truthy ids seen
since process start, not since the last export. -/
theorem c10_active_users (s : MetricsState) (uid : ℕ) (op : MetricsOp)
    (ops : List MetricsOp) (h : uid ≠ 0) :
    uid ∈ (Metrics.trackActiveUser s uid).activeUsers ∧
    s.activeUsers ⊆ (applyMetricsOp s op).activeUsers ∧
    Metrics.exportedActiveUsers s ≤ Metrics.exportedActiveUsers (applyMetricsOp s op) ∧
    (Metrics.sendMetricsToGrafana true s).activeUsers = s.activeUsers ∧
    (ops.foldl applyMetricsOp initMetrics).activeUsers = trackedIds ops := by
  refine ⟨?_, activeUsers_mono s op, ?_, ?_, ?_⟩
  · simp [Metrics.trackActiveUser, h]
  · exact Finset.card_le_card (activeUsers_mono s op)
  · simp [Metrics.sendMetricsToGrafana]
  · rw [activeUsers_fold]; rfl

/-- C10 witness: id 5 tracked, then an export — 5 is still counted. -/
theorem c10_witness :
    (5 : ℕ) ≠ 0 ∧
    ((5 : ℕ) ∈ (Metrics.trackActiveUser initMetrics 5).activeUsers ∧
    initMetrics.activeUsers
      ⊆ (applyMetricsOp initMetrics (.exportMetrics true)).activeUsers ∧
    Metrics.exportedActiveUsers initMetrics
      ≤ Metrics.exportedActiveUsers (applyMetricsOp initMetrics (.exportMetrics true)) ∧
    (Metrics.sendMetricsToGrafana true initMetrics).activeUsers = initMetrics.activeUsers ∧
    (([MetricsOp.activeUser 5, MetricsOp.exportMetrics true]).foldl
        applyMetricsOp initMetrics).activeUsers
      = trackedIds [MetricsOp.activeUser 5, MetricsOp.exportMetrics true]) :=
  ⟨by decide,
    c10_active_users initMetrics 5 (.exportMetrics true)
      [MetricsOp.activeUser 5, MetricsOp.exportMetrics true] (by decide)⟩

/-- The revenue accumulator in the exact (rational) model grows by 0.10 per
successful purchase. -/
lemma revenue_iterate (n : ℕ) : ∀ s : MetricsState,
    ((fun s => Metrics.trackPizzaPurchase s true none 1 (1 / 10))^[n] s).revenue
      = s.revenue + n * (1 / 10) := by
  induction n with
  | zero => intro s; simp
  | succ n ih =>
      intro s
      rw [Function.iterate_succ_apply, ih]
      simp [Metrics.trackPizzaPurchase]
      ring

set_option maxRecDepth 10000

/-- C6: one hundred successful purchases of revenue 0.10 each export a
revenue of exactly 10.00.  In the exact rational model of
`trackPizzaPurchase` the accumulator reaches 10 on the nose.  At machine
precision the accumulator is a binary64 sum — after one hundred additions of
the double nearest 0.10 it holds `720575940379277952 / 2 ^ 56`
(≈ 9.99999999999998, a drift of under `2 ^ -48`) — but the export applies
`toFixed(4)`, which rounds the drift away: the exported decimal is
`100000 / 10 ^ 4`, i.e. exactly `10.0000`.  So the exported value equals
10.00 with zero decimal tolerance. -/
theorem c6_revenue_precision :
    ((fun s => Metrics.trackPizzaPurchase s true none 1 (1 / 10))^[100] initMetrics).revenue
      = 10 ∧
    revenueFloat 100 = 720575940379277952 ∧
    jsToFixed4 (revenueFloat 100) = 100000 ∧
    ((jsToFixed4 (revenueFloat 100) : ℚ) / 10 ^ 4 = 10) := by
  have hf : revenueFloat 100 = 720575940379277952 := by decide
  have hx : jsToFixed4 (revenueFloat 100) = 100000 := by decide
  refine ⟨?_, hf, hx, ?_⟩
  · rw [revenue_iterate]
    simp [initMetrics]
    norm_num
  · rw [hx]
    norm_num
